import Mathlib

/-
Verification model of the solar-monitor acquisition engine
(src/pi/app.py, class SolarCollector).

Modelling conventions:
  * Python floats are modelled as rationals (exact arithmetic).
  * A wall-clock instant (datetime) is a rational number of seconds since
    an arbitrary epoch; the calendar day of an instant is the floor of
    seconds / 86400, modelling datetime.date() for a fixed timezone.
  * Sample.timestamp is produced by ts.isoformat(timespec="seconds"),
    which truncates to whole seconds; we model the stored timestamp as
    the integer floor of the instant.  snapshot() parses it back with
    datetime.fromisoformat, hence compares against the truncated value.
  * dict payloads are modelled by structures; a missing key that the code
    would touch raises KeyError, modelled by dedicated frame events.
-/

namespace SolarMonitor

/-- Calendar day of an instant, modelling `datetime.date()`:
seconds since epoch divided into 86400-second days. -/
def dayOf (t : ℚ) : ℤ := ⌊t / 86400⌋

/-- The four calibration scalars from config["calibration"]. -/
structure Calibration where
  voltage_gain : ℚ
  voltage_offset : ℚ
  current_gain : ℚ
  current_offset : ℚ
  deriving DecidableEq

/-- The fields of an incoming "sample" payload that `_apply_calibration`
touches: raw voltage, raw current, and the (optional) device-reported
power field, which the code overwrites without reading. -/
structure RawReading where
  voltage_v : ℚ
  current_a : ℚ
  power_w : Option ℚ
  deriving DecidableEq

/-- The payload after `_apply_calibration`: all three fields set. -/
structure CalReading where
  voltage_v : ℚ
  current_a : ℚ
  power_w : ℚ
  deriving DecidableEq

/-- Model of `SolarCollector._apply_calibration` (app.py lines 87-92):
linear gain/offset on voltage and current, then power recomputed as the
product of the two calibrated values (any device-reported power field is
overwritten, never read). -/
def apply_calibration (cal : Calibration) (p : RawReading) : CalReading :=
  let v := p.voltage_v * cal.voltage_gain + cal.voltage_offset
  let i := p.current_a * cal.current_gain + cal.current_offset
  { voltage_v := v, current_a := i, power_w := v * i }

/-- The integration carry state owned by the engine:
`_energy_wh_day`, `_last_sample_ts`, `_day_marker`. -/
structure Carry where
  energy_wh_day : ℚ
  last_sample_ts : Option ℚ
  day_marker : ℤ
  deriving DecidableEq

/-- Model of `SolarCollector._integrate_energy` (app.py lines 94-106).
Returns the updated carry; the running total the Python method returns is
the `energy_wh_day` field of the result. -/
def integrate_energy (c : Carry) (ts : ℚ) (power_w : ℚ) : Carry :=
  let c1 := if dayOf ts ≠ c.day_marker then
      { energy_wh_day := 0, last_sample_ts := none, day_marker := dayOf ts }
    else c
  let e := match c1.last_sample_ts with
    | none => c1.energy_wh_day
    | some prev =>
        let dt_h := (ts - prev) / 3600
        if 0 ≤ dt_h ∧ dt_h ≤ 1 then c1.energy_wh_day + power_w * dt_h
        else c1.energy_wh_day
  { energy_wh_day := e, last_sample_ts := some ts, day_marker := c1.day_marker }

/-- The energy-integration step as the spec words it (section 4.1,
"Integrate energy", steps 1-3), written independently of the code to be
compared with `integrate_energy`:
step 1: on a calendar-day change reset total, marker and prior timestamp;
step 2: if a prior timestamp exists and the elapsed hours lie in [0, 1],
add power times elapsed hours;
step 3: store the current timestamp and return the running total. -/
def integrateSpec (c : Carry) (ts : ℚ) (power_w : ℚ) : Carry :=
  let step1 : Carry :=
    if dayOf ts = c.day_marker then c
    else { energy_wh_day := 0, last_sample_ts := none, day_marker := dayOf ts }
  let total : ℚ :=
    match step1.last_sample_ts with
    | some prev =>
        let elapsed := (ts - prev) / 3600
        if 0 ≤ elapsed ∧ elapsed ≤ 1 then step1.energy_wh_day + power_w * elapsed
        else step1.energy_wh_day
    | none => step1.energy_wh_day
  { energy_wh_day := total, last_sample_ts := some ts, day_marker := step1.day_marker }

/-- Trace of running totals produced by successive `_integrate_energy`
calls from a given carry, one entry per (timestamp, power) input. -/
def integrateRun (c : Carry) : List (ℚ × ℚ) → List ℚ
  | [] => []
  | (ts, p) :: rest =>
      let c1 := integrate_energy c ts p
      c1.energy_wh_day :: integrateRun c1 rest

/-- One fully processed reading (the `Sample` dataclass).  `timestamp`
is the whole-second value stored by `ts.isoformat(timespec="seconds")`. -/
structure Sample where
  timestamp : ℤ
  voltage_v : ℚ
  current_a : ℚ
  power_w : ℚ
  temp_front_c : ℚ
  temp_back_c : ℚ
  energy_wh_day : ℚ
  deriving DecidableEq

/-- The configuration values the engine reads:
history capacity (`sampling.max_buffer_points`), staleness threshold in
seconds (`sampling.stale_after_s`), and the calibration scalars. -/
structure Config where
  cap : ℕ
  stale_after_s : ℚ
  cal : Calibration
  deriving DecidableEq

/-- The engine-owned mutable state of `SolarCollector`:
`_latest`, `_history`, `_last_error`, the integration carry
(`_energy_wh_day`, `_last_sample_ts`, `_day_marker`), and whether the
serial transport is open. -/
structure EngineState where
  latest : Option Sample
  history : List Sample
  last_error : Option String
  carry : Carry
  serial_open : Bool
  deriving DecidableEq

/-- State after `__init__`: no sample, empty history, no error, zero
energy, no prior timestamp, day marker from `date.today()`. -/
def initState (day0 : ℤ) : EngineState :=
  { latest := none, history := [], last_error := none,
    carry := { energy_wh_day := 0, last_sample_ts := none, day_marker := day0 },
    serial_open := false }

/-- The outcome of one loop cycle, as observed by the engine after the
transport read and decode.  Each constructor names one control path of
`_run` (app.py lines 124-167):
* `emptyRead`: timeout, empty line.
* `badJson`: the line fails to parse as JSON (json.JSONDecodeError).
* `nonObject msg`: the line parses as valid JSON that is not an object
  (for example the frame text "[1]"); `payload.get` then raises
  AttributeError with message `msg`, caught by the generic handler.
* `wrongType`: a JSON object whose "type" field is not "sample".
* `missingVI`: a "sample" object lacking voltage_v or current_a, so
  `_apply_calibration` raises KeyError before any engine-state change.
* `missingTemp v i rp`: a "sample" object with numeric voltage_v `v` and
  current_a `i` (and device power field `rp`) but lacking temp_front_c
  or temp_back_c: calibration and `_integrate_energy` run, then building
  the Sample raises KeyError.
* `sample v i tf tb rp`: a complete "sample" object.
* `serialFault msg`: serial.SerialException (failed open, read error)
  with message `msg`.
* `otherFault msg`: any other exception during processing. -/
inductive FrameEvent where
  | emptyRead : FrameEvent
  | badJson : FrameEvent
  | nonObject (msg : String) : FrameEvent
  | wrongType : FrameEvent
  | missingVI : FrameEvent
  | missingTemp (voltage_v current_a : ℚ) (rawPower : Option ℚ) : FrameEvent
  | sample (voltage_v current_a temp_front_c temp_back_c : ℚ)
      (rawPower : Option ℚ) : FrameEvent
  | serialFault (msg : String) : FrameEvent
  | otherFault (msg : String) : FrameEvent
  deriving DecidableEq

/-- Appending to `collections.deque(maxlen := cap)`: keep the newest
`cap` elements of `h ++ [s]`.  With `cap = 0` the deque stays empty. -/
def pushHistory (cap : ℕ) (h : List Sample) (s : Sample) : List Sample :=
  (h ++ [s]).drop (h.length + 1 - cap)

/-- The Sample a successful cycle commits (lines 137-149): calibrated
fields, engine wall-clock timestamp truncated to seconds, energy from
the updated carry. -/
def commitSample (cfg : Config) (c : Carry) (now : ℚ)
    (v i tf tb : ℚ) (rp : Option ℚ) : Sample :=
  let cf := apply_calibration cfg.cal { voltage_v := v, current_a := i, power_w := rp }
  let c1 := integrate_energy c now cf.power_w
  { timestamp := ⌊now⌋, voltage_v := cf.voltage_v, current_a := cf.current_a,
    power_w := cf.power_w, temp_front_c := tf, temp_back_c := tb,
    energy_wh_day := c1.energy_wh_day }

/-- Result of one cycle: the new engine state and the backoff sleep the
cycle performs (0, 1 or 2 seconds). -/
structure CycleOut where
  state : EngineState
  sleep_s : ℚ
  deriving DecidableEq

/-- One iteration of the `while self._running` body of `_run`
(app.py lines 124-167), given the wall-clock instant `now` read by
`datetime.now()` and the decoded outcome of the transport read.
Reaching any frame event means the connect step succeeded, so the
transport is open on those paths; a serial fault closes it. -/
def runCycle (cfg : Config) (s : EngineState) (now : ℚ) (ev : FrameEvent) : CycleOut :=
  match ev with
  | .emptyRead => { state := { s with serial_open := true }, sleep_s := 0 }
  | .badJson => { state := { s with serial_open := true }, sleep_s := 0 }
  | .wrongType => { state := { s with serial_open := true }, sleep_s := 0 }
  | .missingVI => { state := { s with serial_open := true }, sleep_s := 0 }
  | .nonObject msg =>
      { state := { s with
                   serial_open := true,
                   last_error := some ("Collector error: " ++ msg) },
        sleep_s := 1 }
  | .missingTemp v i rp =>
      let cf := apply_calibration cfg.cal { voltage_v := v, current_a := i, power_w := rp }
      { state := { s with
                   serial_open := true,
                   carry := integrate_energy s.carry now cf.power_w },
        sleep_s := 0 }
  | .sample v i tf tb rp =>
      let cf := apply_calibration cfg.cal { voltage_v := v, current_a := i, power_w := rp }
      let c1 := integrate_energy s.carry now cf.power_w
      let smp := commitSample cfg s.carry now v i tf tb rp
      { state := { latest := some smp,
                   history := pushHistory cfg.cap s.history smp,
                   last_error := none,
                   carry := c1,
                   serial_open := true },
        sleep_s := 0 }
  | .serialFault msg =>
      { state := { s with
                   last_error := some ("Serial error: " ++ msg),
                   serial_open := false },
        sleep_s := 2 }
  | .otherFault msg =>
      { state := { s with last_error := some ("Collector error: " ++ msg) },
        sleep_s := 1 }

/-- Run a sequence of cycles, each with its wall-clock instant. -/
def runTrace (cfg : Config) (s : EngineState) (tr : List (ℚ × FrameEvent)) : EngineState :=
  tr.foldl (fun st pe => (runCycle cfg st pe.1 pe.2).state) s

/-- The read-only view `snapshot` returns. -/
structure SnapshotView where
  latest : Option Sample
  history : List Sample
  stale : Bool
  last_error : Option String
  deriving DecidableEq

/-- Model of `SolarCollector.snapshot` (app.py lines 169-187): copy
`latest`, `history` and `last_error` under the lock, then compute
`stale`: true when no sample exists, otherwise true exactly when
`now` minus the stored (whole-second) timestamp exceeds the configured
threshold. -/
def snapshot (cfg : Config) (s : EngineState) (now : ℚ) : SnapshotView :=
  let stale : Bool :=
    match s.latest with
    | none => true
    | some smp => decide (now - (smp.timestamp : ℚ) > cfg.stale_after_s)
  { latest := s.latest, history := s.history, stale := stale,
    last_error := s.last_error }

/-- Decimal digit character for a digit value. -/
def digitChar (n : ℕ) : Char :=
  if n = 0 then '0' else if n = 1 then '1' else if n = 2 then '2'
  else if n = 3 then '3' else if n = 4 then '4' else if n = 5 then '5'
  else if n = 6 then '6' else if n = 7 then '7' else if n = 8 then '8'
  else '9'

/-- Exactly `w` decimal digit characters of `n`, most significant first,
with leading zeros (used for the fractional part, which is < 10 ^ w). -/
def fixedDigits : ℕ → ℕ → List Char
  | 0, _ => []
  | w + 1, n => fixedDigits w (n / 10) ++ [digitChar (n % 10)]

/-- Model of the Python fixed-point format `f"{x:.pf}"`: the value
rounded to `p` decimal places, rendered with a minus sign for negative
results, the integer part, a dot, and exactly `p` fractional digits.
(Python rounds the underlying double half-to-even; at the rational level
we use round-to-nearest, which agrees except on exact ties, and no claim
depends on tie behaviour.) -/
def fmtFixed (p : ℕ) (x : ℚ) : String :=
  let n : ℤ := round (x * (10 : ℚ) ^ p)
  let m : ℕ := n.natAbs
  let ip : ℕ := m / 10 ^ p
  let fp : ℕ := m % 10 ^ p
  let sgn : List Char := if n < 0 then ['-'] else []
  String.mk (sgn ++ (Nat.repr ip).data ++ '.' :: fixedDigits p fp)

/-- Number of characters after the last dot of a string (its decimal
places, for a fixed-point numeral). -/
def decimalsAfterDot (s : String) : ℕ :=
  (s.data.reverse.takeWhile (fun c => c ≠ '.')).length

/-- The header row `_ensure_csv_header` writes (app.py lines 49-64). -/
def csvHeader : List String :=
  ["timestamp", "voltage_v", "current_a", "power_w",
   "temp_front_c", "temp_back_c", "energy_wh_day"]

/-- The row `_append_csv` writes for one sample (app.py lines 108-121):
the timestamp string, then the numeric fields at 4, 4, 4, 3, 3 and 6
decimal places. -/
def sampleRow (smp : Sample) : List String :=
  [toString smp.timestamp,
   fmtFixed 4 smp.voltage_v,
   fmtFixed 4 smp.current_a,
   fmtFixed 4 smp.power_w,
   fmtFixed 3 smp.temp_front_c,
   fmtFixed 3 smp.temp_back_c,
   fmtFixed 6 smp.energy_wh_day]

/-- The durable log as a list of rows; `none` models an absent file. -/
def ensure_csv_header (file : Option (List (List String))) : List (List String) :=
  match file with
  | none => [csvHeader]
  | some rows => if rows.isEmpty then [csvHeader] else rows

/-- `_append_csv`: append exactly one row for the committed sample. -/
def append_csv (rows : List (List String)) (smp : Sample) : List (List String) :=
  rows ++ [sampleRow smp]

/-- Operations that touch the durable log over the process lifetime:
a commit of a sample, or a restart (a new `SolarCollector.__init__`
running `_ensure_csv_header` on the existing file). -/
inductive CsvOp where
  | commit (smp : Sample) : CsvOp
  | restart : CsvOp
  deriving DecidableEq

/-- Run a sequence of log operations on the current file contents. -/
def runCsv (rows : List (List String)) : List CsvOp → List (List String)
  | [] => rows
  | .commit smp :: ops => runCsv (append_csv rows smp) ops
  | .restart :: ops => runCsv (ensure_csv_header (some rows)) ops

/-- The samples committed by a sequence of log operations, in order. -/
def committedSamples (ops : List CsvOp) : List Sample :=
  ops.filterMap fun op => match op with
    | .commit smp => some smp
    | .restart => none

/-- The frame outcomes `_run` discards silently (the `continue` paths
and the `except (json.JSONDecodeError, KeyError)` handler): empty read,
JSON parse failure, wrong type tag, and KeyError from a missing field. -/
def silentlyDiscarded : FrameEvent → Bool
  | .emptyRead => true
  | .badJson => true
  | .wrongType => true
  | .missingVI => true
  | .missingTemp _ _ _ => true
  | _ => false

/-- A concrete configuration with identity calibration, capacity 16 and
a 60-second staleness threshold, used to instantiate theorems. -/
def cfgUnit : Config :=
  { cap := 16, stale_after_s := 60,
    cal := { voltage_gain := 1, voltage_offset := 0,
             current_gain := 1, current_offset := 0 } }

/- ------------------------------------------------------------------
   Helper lemmas about the integration step
   ------------------------------------------------------------------ -/

theorem aux_code_eq_spec (c : Carry) (ts p : ℚ) :
    integrate_energy c ts p = integrateSpec c ts p := by
  by_cases h : dayOf ts = c.day_marker
  · cases hl : c.last_sample_ts <;> simp [integrate_energy, integrateSpec, h, hl]
  · simp [integrate_energy, integrateSpec, h]

theorem aux_marker (c : Carry) (ts p : ℚ) :
    (integrate_energy c ts p).day_marker = dayOf ts := by
  by_cases h : dayOf ts = c.day_marker <;>
    simp [integrate_energy, h]

theorem aux_last_ts (c : Carry) (ts p : ℚ) :
    (integrate_energy c ts p).last_sample_ts = some ts := by
  by_cases h : dayOf ts = c.day_marker <;>
    simp [integrate_energy, h]

theorem aux_reset (c : Carry) (ts p : ℚ) (h : dayOf ts ≠ c.day_marker) :
    (integrate_energy c ts p).energy_wh_day = 0 := by
  simp [integrate_energy, h]

theorem aux_mono (c : Carry) (ts p : ℚ) (hd : dayOf ts = c.day_marker) (hp : 0 ≤ p) :
    c.energy_wh_day ≤ (integrate_energy c ts p).energy_wh_day := by
  simp only [integrate_energy, hd, ne_eq, not_true_eq_false, if_false]
  cases hlast : c.last_sample_ts with
  | none => simp
  | some prev =>
      simp only
      split_ifs with h
      · have : 0 ≤ p * ((ts - prev) / 3600) := mul_nonneg hp h.1
        linarith
      · exact le_refl _

theorem aux_chain (D : ℤ) (l : List (ℚ × ℚ)) :
    ∀ c : Carry, (∀ s ∈ l, dayOf s.1 = D) → (∀ s ∈ l, 0 ≤ s.2) →
    List.Chain' (fun a b => a ≤ b) (integrateRun c l) := by
  induction l with
  | nil => intro c _ _; simp [integrateRun]
  | cons x tl ih =>
      intro c hday hpow
      have hrun : integrateRun c (x :: tl) =
          (integrate_energy c x.1 x.2).energy_wh_day ::
            integrateRun (integrate_energy c x.1 x.2) tl := rfl
      rw [hrun]
      have htl := ih (integrate_energy c x.1 x.2)
        (fun s hs => hday s (List.mem_cons_of_mem _ hs))
        (fun s hs => hpow s (List.mem_cons_of_mem _ hs))
      cases tl with
      | nil => simp [integrateRun]
      | cons y tl2 =>
          have hx : dayOf x.1 = D := hday x (by simp)
          have hy : dayOf y.1 = D := hday y (by simp)
          have hpy : 0 ≤ y.2 := hpow y (by simp)
          have hrun2 : integrateRun (integrate_energy c x.1 x.2) (y :: tl2) =
              (integrate_energy (integrate_energy c x.1 x.2) y.1 y.2).energy_wh_day ::
              integrateRun (integrate_energy (integrate_energy c x.1 x.2) y.1 y.2) tl2 := rfl
          rw [hrun2] at htl ⊢
          exact List.Chain'.cons
            (aux_mono _ _ _ (by rw [aux_marker, hy, hx]) hpy) htl

/- ------------------------------------------------------------------
   Claim C1
   ------------------------------------------------------------------ -/

/-- C1 counterexample: for samples at T0 = 0 s, T1 = 1800 s (T0+30min)
and T2 = 5400 s (T0+90min) with constant power 100, starting from a
fresh carry for the day of T0, the running total is 50 after T1 but 150
after T2.  The claim asserts the total after T2 is unchanged (50); it is
not, because T2 − T1 is exactly one hour, which lies inside the closed
interval [0, 1] that the code (and the claim itself) uses, so the
addition of 100 × 1 is performed. -/
theorem c1_counterexample :
    (integrate_energy (integrate_energy ⟨0, none, 0⟩ 0 100) 1800 100).energy_wh_day = 50 ∧
    (integrate_energy (integrate_energy (integrate_energy ⟨0, none, 0⟩ 0 100) 1800 100)
        5400 100).energy_wh_day = 150 ∧
    (150 : ℚ) ≠ 50 := by
  refine ⟨?_, ?_, by norm_num⟩ <;> norm_num [integrate_energy, dayOf]

/-- C1 (amended): the energy-integration step behaves exactly as
specified (it coincides with `integrateSpec`, the three steps of the spec:
day-boundary reset, guarded addition of power × elapsed hours for
elapsed hours in the closed interval [0, 1], store timestamp and return
the total); and for samples at T0, T1 = T0+30min, T2 = T0+90min inside
one calendar day with constant power P, the total is P × 0.5 after T1
and P × 1.5 after T2 — the T1→T2 gap is exactly one hour, which the
closed interval includes, so that addition is performed rather than
skipped. -/
theorem c1_energy_integration :
    (∀ (c : Carry) (ts p : ℚ), integrate_energy c ts p = integrateSpec c ts p) ∧
    ∀ (t0 P : ℚ),
      dayOf (t0 + 1800) = dayOf t0 →
      dayOf (t0 + 5400) = dayOf t0 →
      integrateRun { energy_wh_day := 0, last_sample_ts := none, day_marker := dayOf t0 }
          [(t0, P), (t0 + 1800, P), (t0 + 5400, P)] =
        [0, P * (1 / 2), P * (3 / 2)] := by
  constructor
  · intro c ts p
    by_cases h : dayOf ts = c.day_marker
    · cases hl : c.last_sample_ts <;> simp [integrate_energy, integrateSpec, h, hl]
    · simp [integrate_energy, integrateSpec, h]
  · intro t0 P h1 h2
    have d1 : (t0 + 1800 - t0) / 3600 = (1 / 2 : ℚ) := by ring
    have d2 : (t0 + 5400 - (t0 + 1800)) / 3600 = (1 : ℚ) := by ring
    simp only [integrateRun, integrate_energy, h1, h2, ne_eq, not_true_eq_false, if_false,
      d1, d2]
    norm_num
    ring

/-- Witness for C1: the amended theorem applied at T0 = 0, P = 100. -/
theorem c1_witness :
    integrateRun { energy_wh_day := 0, last_sample_ts := none, day_marker := dayOf 0 }
        [((0 : ℚ), (100 : ℚ)), (0 + 1800, 100), (0 + 5400, 100)] =
      [0, 100 * (1 / 2), 100 * (3 / 2)] :=
  c1_energy_integration.2 0 100 (by norm_num [dayOf]) (by norm_num [dayOf])

/- ------------------------------------------------------------------
   Claim C2
   ------------------------------------------------------------------ -/

/-- C2: calibration maps raw voltage `v` and raw current `i` to
v × gain + offset and i × gain + offset, and the resulting power is the
product of the two calibrated values; the device-reported power field
`rp` never influences the result (the output is the same for any two
values of it), and the sample a commit constructs carries that
recomputed power as well. -/
theorem c2_calibrated_power (cal : Calibration) (v i : ℚ) (rp : Option ℚ) :
    (apply_calibration cal ⟨v, i, rp⟩).voltage_v =
      v * cal.voltage_gain + cal.voltage_offset ∧
    (apply_calibration cal ⟨v, i, rp⟩).current_a =
      i * cal.current_gain + cal.current_offset ∧
    (apply_calibration cal ⟨v, i, rp⟩).power_w =
      (apply_calibration cal ⟨v, i, rp⟩).voltage_v *
        (apply_calibration cal ⟨v, i, rp⟩).current_a ∧
    (∀ rp2 : Option ℚ, apply_calibration cal ⟨v, i, rp2⟩ =
      apply_calibration cal ⟨v, i, rp⟩) ∧
    ∀ (cfg : Config) (c : Carry) (now tf tb : ℚ),
      (commitSample cfg c now v i tf tb rp).power_w =
        (commitSample cfg c now v i tf tb rp).voltage_v *
          (commitSample cfg c now v i tf tb rp).current_a :=
  ⟨rfl, rfl, rfl, fun _ => rfl, fun _ _ _ _ _ => rfl⟩

/- ------------------------------------------------------------------
   Claim C3
   ------------------------------------------------------------------ -/

/-- C3 counterexample: two samples in the same calendar day (day 0)
whose calibrated power is negative (−10 W, possible since calibration is
an affine map with arbitrary gains and offsets) produce the running
totals 0 then −5: the energy value carried by the committed samples
strictly decreases within one calendar day, so it is not monotonically
non-decreasing as claimed. -/
theorem c3_counterexample :
    (∀ s ∈ [((0 : ℚ), (-10 : ℚ)), (1800, -10)], dayOf s.1 = 0) ∧
    integrateRun ⟨0, none, 0⟩ [(0, -10), (1800, -10)] = [0, -5] ∧
    ¬ List.Chain' (fun a b => a ≤ b) [(0 : ℚ), -5] := by
  refine ⟨?_, ?_, ?_⟩
  · intro s hs
    simp only [List.mem_cons, List.not_mem_nil, or_false] at hs
    rcases hs with h | h <;> subst h <;> norm_num [dayOf]
  · norm_num [integrateRun, integrate_energy, dayOf]
  · intro h
    have := List.chain'_cons.mp h
    linarith [this.1]

/-- C3 (amended): provided the calibrated power of every committed sample is
non-negative, the energy-today values carried by any sequence of samples
whose timestamps fall in the same calendar day are monotonically
non-decreasing; and at the first sample of a new calendar day (one whose
day differs from the stored day marker) the returned running total is
zero. -/
theorem c3_energy_monotone (D : ℤ) (l : List (ℚ × ℚ)) (c : Carry)
    (hday : ∀ s ∈ l, dayOf s.1 = D) (hpow : ∀ s ∈ l, 0 ≤ s.2) :
    List.Chain' (fun a b => a ≤ b) (integrateRun c l) ∧
    ∀ (c2 : Carry) (ts p : ℚ), dayOf ts ≠ c2.day_marker →
      (integrate_energy c2 ts p).energy_wh_day = 0 := by
  refine ⟨aux_chain D l c hday hpow, ?_⟩
  intro c2 ts p h
  exact aux_reset c2 ts p h

/-- Witness for C3: the amended theorem applied to two same-day samples
of power 10, and to a day-rollover step, with concrete values. -/
theorem c3_witness :
    List.Chain' (fun a b => a ≤ b)
      (integrateRun ⟨0, none, 0⟩ [((0 : ℚ), (10 : ℚ)), (1800, 10)]) ∧
    (integrate_energy ⟨5, some 0, 0⟩ 86400 3).energy_wh_day = 0 := by
  have h := c3_energy_monotone 0 [((0 : ℚ), (10 : ℚ)), (1800, 10)] ⟨0, none, 0⟩
    (by intro s hs
        simp only [List.mem_cons, List.not_mem_nil, or_false] at hs
        rcases hs with h | h <;> subst h <;> norm_num [dayOf])
    (by intro s hs
        simp only [List.mem_cons, List.not_mem_nil, or_false] at hs
        rcases hs with h | h <;> subst h <;> norm_num)
  exact ⟨h.1, h.2 ⟨5, some 0, 0⟩ 86400 3 (by norm_num [dayOf])⟩

/- ------------------------------------------------------------------
   Claim C4
   ------------------------------------------------------------------ -/

/-- C4 counterexample: a frame whose text is valid JSON but not a JSON
object (for example the line "[1]") fails to decode to a structured
record, so the claim demands no state change; but in the code
`payload.get("type")` raises AttributeError, which is caught by the
generic `except Exception` handler, so `lastError` changes from absent
to a recorded message. -/
theorem c4_counterexample :
    (initState 0).last_error = none ∧
    (runCycle cfgUnit (initState 0) 0
        (.nonObject "list object has no attribute get")).state.last_error =
      some "Collector error: list object has no attribute get" ∧
    (some "Collector error: list object has no attribute get" : Option String) ≠ none := by
  refine ⟨rfl, ?_, by simp⟩
  rfl

/-- C4 (amended): a frame that produces an empty read, fails to parse as
JSON, carries a type tag other than "sample", or is missing required
fields (voltage/current before calibration, or the temperatures later)
leaves latest, history and lastError unchanged and records no error, and
the loop continues; however a frame that parses as valid JSON but is not
a JSON object is handled by the catch-all instead: latest and history
are still unchanged but lastError is set to a collector-error message. -/
theorem c4_malformed_silent (cfg : Config) (s : EngineState) (now : ℚ)
    (ev : FrameEvent) (hev : silentlyDiscarded ev = true) :
    ((runCycle cfg s now ev).state.latest = s.latest ∧
     (runCycle cfg s now ev).state.history = s.history ∧
     (runCycle cfg s now ev).state.last_error = s.last_error) ∧
    ∀ msg : String,
      (runCycle cfg s now (.nonObject msg)).state.latest = s.latest ∧
      (runCycle cfg s now (.nonObject msg)).state.history = s.history ∧
      (runCycle cfg s now (.nonObject msg)).state.last_error =
        some ("Collector error: " ++ msg) := by
  constructor
  · cases ev <;> simp_all [runCycle, silentlyDiscarded]
  · intro msg
    exact ⟨rfl, rfl, rfl⟩

/-- Witness for C4: a JSON-parse-failure frame on the fresh engine state
leaves lastError unchanged. -/
theorem c4_witness :
    (runCycle cfgUnit (initState 0) 0 .badJson).state.last_error =
      (initState 0).last_error :=
  (c4_malformed_silent cfgUnit (initState 0) 0 .badJson rfl).1.2.2

/- ------------------------------------------------------------------
   Helper lemmas about the bounded history
   ------------------------------------------------------------------ -/

theorem aux_push_getLast (cap : ℕ) (hcap : 1 ≤ cap) (h : List Sample) (s : Sample) :
    (pushHistory cap h s).getLast? = some s := by
  unfold pushHistory
  rw [List.drop_append_eq_append_drop]
  have h0 : h.length + 1 - cap - h.length = 0 := by omega
  rw [h0, List.drop_zero]
  exact List.getLast?_concat _

theorem aux_push_len_le (cap : ℕ) (h : List Sample) (s : Sample) :
    (pushHistory cap h s).length ≤ cap := by
  unfold pushHistory
  rw [List.length_drop, List.length_append]
  simp
  omega

theorem aux_push_full (cap : ℕ) (hcap : 1 ≤ cap) (h : List Sample) (s : Sample)
    (hh : h.length = cap) : pushHistory cap h s = h.drop 1 ++ [s] := by
  unfold pushHistory
  have h1 : h.length + 1 - cap = 1 := by omega
  rw [h1, List.drop_append_eq_append_drop]
  have h0 : 1 - h.length = 0 := by omega
  rw [h0, List.drop_zero]

theorem aux_push_below (cap : ℕ) (h : List Sample) (s : Sample)
    (hh : h.length < cap) : pushHistory cap h s = h ++ [s] := by
  unfold pushHistory
  have h0 : h.length + 1 - cap = 0 := by omega
  rw [h0, List.drop_zero]

theorem aux_cycle_inv (cfg : Config) (hcap : 1 ≤ cfg.cap) (s : EngineState)
    (now : ℚ) (ev : FrameEvent) (hs : s.history.getLast? = s.latest) :
    (runCycle cfg s now ev).state.history.getLast? =
      (runCycle cfg s now ev).state.latest := by
  cases ev <;> simp [runCycle, hs, aux_push_getLast cfg.cap hcap]

theorem aux_trace_inv (cfg : Config) (hcap : 1 ≤ cfg.cap)
    (tr : List (ℚ × FrameEvent)) :
    ∀ s : EngineState, s.history.getLast? = s.latest →
      (runTrace cfg s tr).history.getLast? = (runTrace cfg s tr).latest := by
  induction tr with
  | nil => intro s hs; exact hs
  | cons pe tr ih =>
      intro s hs
      exact ih _ (aux_cycle_inv cfg hcap s pe.1 pe.2 hs)

theorem aux_cycle_len (cfg : Config) (s : EngineState) (now : ℚ) (ev : FrameEvent)
    (hs : s.history.length ≤ cfg.cap) :
    (runCycle cfg s now ev).state.history.length ≤ cfg.cap := by
  cases ev <;> simp [runCycle, hs, aux_push_len_le cfg.cap]

theorem aux_trace_len (cfg : Config) (tr : List (ℚ × FrameEvent)) :
    ∀ s : EngineState, s.history.length ≤ cfg.cap →
      (runTrace cfg s tr).history.length ≤ cfg.cap := by
  induction tr with
  | nil => intro s hs; exact hs
  | cons pe tr ih =>
      intro s hs
      exact ih _ (aux_cycle_len cfg s pe.1 pe.2 hs)

/- ------------------------------------------------------------------
   Claim C5
   ------------------------------------------------------------------ -/

/-- C5 counterexample: with configured history capacity 0 (the code
passes `max_buffer_points` straight to `deque(maxlen=...)`, and a deque
with maxlen 0 discards every append), after one committed sample the
engine state has a present latest but an empty history, so latest is
neither absent nor the most recently appended element of history. -/
theorem c5_counterexample :
    ((runTrace ⟨0, 60, ⟨1, 0, 1, 0⟩⟩ (initState 0)
        [((0 : ℚ), FrameEvent.sample 1 1 0 0 none)]).latest).isSome = true ∧
    (runTrace ⟨0, 60, ⟨1, 0, 1, 0⟩⟩ (initState 0)
        [((0 : ℚ), FrameEvent.sample 1 1 0 0 none)]).history = [] ∧
    (runTrace ⟨0, 60, ⟨1, 0, 1, 0⟩⟩ (initState 0)
        [((0 : ℚ), FrameEvent.sample 1 1 0 0 none)]).history.getLast? = none :=
  ⟨rfl, rfl, rfl⟩

/-- C5 (amended): provided the configured capacity is at least 1, in
every reachable engine state the last element of history equals latest
(so latest is absent exactly when history is empty), and a snapshot of
any reachable state observes the same consistent pair. -/
theorem c5_latest_history (cfg : Config) (hcap : 1 ≤ cfg.cap) (day0 : ℤ)
    (tr : List (ℚ × FrameEvent)) (now : ℚ) :
    (runTrace cfg (initState day0) tr).history.getLast? =
      (runTrace cfg (initState day0) tr).latest ∧
    (snapshot cfg (runTrace cfg (initState day0) tr) now).history.getLast? =
      (snapshot cfg (runTrace cfg (initState day0) tr) now).latest := by
  have h := aux_trace_inv cfg hcap tr (initState day0) rfl
  exact ⟨h, h⟩

/-- Witness for C5: the amended theorem at capacity 16 on a one-commit
trace. -/
theorem c5_witness :
    (runTrace cfgUnit (initState 0)
        [((0 : ℚ), FrameEvent.sample 1 1 0 0 none)]).history.getLast? =
      (runTrace cfgUnit (initState 0)
        [((0 : ℚ), FrameEvent.sample 1 1 0 0 none)]).latest :=
  (c5_latest_history cfgUnit (by norm_num [cfgUnit]) 0
    [((0 : ℚ), FrameEvent.sample 1 1 0 0 none)] 0).1

/- ------------------------------------------------------------------
   Claim C6
   ------------------------------------------------------------------ -/

/-- C6 counterexample: with configured capacity 0, history is already at
capacity (0 elements) in the fresh state, yet a further commit leaves
history empty rather than evicting the oldest element and appending the
new sample (which would leave exactly one element as the evict-oldest
description of the claim requires). -/
theorem c6_counterexample :
    (initState 0).history.length = (0 : ℕ) ∧
    (runCycle ⟨0, 60, ⟨1, 0, 1, 0⟩⟩ (initState 0) 0
        (.sample 1 1 0 0 none)).state.history = [] ∧
    ∀ smp : Sample,
      ([] : List Sample) ≠ (initState 0).history.drop 1 ++ [smp] := by
  refine ⟨rfl, rfl, ?_⟩
  intro smp
  simp [initState]

/-- C6 (amended): provided the configured capacity is at least 1,
history in every reachable state never exceeds the capacity; a commit
made when history is exactly at capacity evicts exactly the oldest
element and appends the new sample at the end (preserving the arrival
order of the survivors), and a commit below capacity simply appends. -/
theorem c6_history_bound (cfg : Config) (hcap : 1 ≤ cfg.cap) :
    (∀ (day0 : ℤ) (tr : List (ℚ × FrameEvent)),
      (runTrace cfg (initState day0) tr).history.length ≤ cfg.cap) ∧
    (∀ (s : EngineState) (now v i tf tb : ℚ) (rp : Option ℚ),
      s.history.length = cfg.cap →
      (runCycle cfg s now (.sample v i tf tb rp)).state.history =
        s.history.drop 1 ++ [commitSample cfg s.carry now v i tf tb rp]) ∧
    (∀ (s : EngineState) (now v i tf tb : ℚ) (rp : Option ℚ),
      s.history.length < cfg.cap →
      (runCycle cfg s now (.sample v i tf tb rp)).state.history =
        s.history ++ [commitSample cfg s.carry now v i tf tb rp]) := by
  refine ⟨?_, ?_, ?_⟩
  · intro day0 tr
    exact aux_trace_len cfg tr (initState day0) (by simp [initState])
  · intro s now v i tf tb rp hfull
    exact aux_push_full cfg.cap hcap s.history _ hfull
  · intro s now v i tf tb rp hlt
    exact aux_push_below cfg.cap s.history _ hlt

/-- Witness for C6: a commit below capacity appends the new sample. -/
theorem c6_witness :
    (runCycle cfgUnit (initState 0) 0 (.sample 1 1 0 0 none)).state.history =
      (initState 0).history ++ [commitSample cfgUnit (initState 0).carry 0 1 1 0 0 none] :=
  (c6_history_bound cfgUnit (by norm_num [cfgUnit])).2.2 (initState 0) 0 1 1 0 0 none
    (by norm_num [initState, cfgUnit])

/- ------------------------------------------------------------------
   Claim C7
   ------------------------------------------------------------------ -/

/-- C7: a transport-level fault records a non-empty human-readable
message into lastError, leaves latest and history untouched, closes the
transport, and backs off 2 seconds before the loop reconnects; and any
successfully committed sample resets lastError to absent. -/
theorem c7_serial_fault (cfg : Config) (s : EngineState) (now : ℚ) (msg : String) :
    (runCycle cfg s now (.serialFault msg)).state.last_error =
      some ("Serial error: " ++ msg) ∧
    ("Serial error: " ++ msg) ≠ "" ∧
    (runCycle cfg s now (.serialFault msg)).state.latest = s.latest ∧
    (runCycle cfg s now (.serialFault msg)).state.history = s.history ∧
    (runCycle cfg s now (.serialFault msg)).state.serial_open = false ∧
    (runCycle cfg s now (.serialFault msg)).sleep_s = 2 ∧
    ∀ (s2 : EngineState) (now2 v i tf tb : ℚ) (rp : Option ℚ),
      (runCycle cfg s2 now2 (.sample v i tf tb rp)).state.last_error = none := by
  refine ⟨rfl, ?_, rfl, rfl, rfl, rfl, fun _ _ _ _ _ _ _ => rfl⟩
  intro h
  have hlen : ("Serial error: " ++ msg).length = 0 := by rw [h]; rfl
  rw [String.length_append] at hlen
  have : ("Serial error: " : String).length = 14 := rfl
  omega

/- ------------------------------------------------------------------
   Claim C9
   ------------------------------------------------------------------ -/

/-- C9 counterexample: with a staleness threshold of 0.5 seconds, a
sample committed at wall-clock instant 0.9 s stores the truncated
timestamp 0 (isoformat with second precision), so a snapshot taken at
the very same instant computes an elapsed time of 0.9 s > 0.5 s and
reports stale = true — the claim says stale is false immediately after
a commit. -/
theorem c9_counterexample :
    (snapshot ⟨16, 1 / 2, ⟨1, 0, 1, 0⟩⟩
      (runCycle ⟨16, 1 / 2, ⟨1, 0, 1, 0⟩⟩ (initState 0) (9 / 10)
        (.sample 1 1 0 0 none)).state (9 / 10)).stale = true := by
  simp only [snapshot, runCycle, commitSample]
  rw [decide_eq_true_eq]
  norm_num

/-- C9 (amended): the stale flag is true exactly when latest is absent
or the elapsed time from the stored (whole-second, truncated) timestamp
of latest to the current time exceeds the configured threshold; in
particular, provided the threshold is at least 1 second (covering the
sub-second loss from timestamp truncation), stale is false immediately
after a commit, and it is true once more than the threshold has elapsed
since the commit with no new sample. -/
theorem c9_snapshot_stale (cfg : Config) (s : EngineState) (now : ℚ) :
    ((snapshot cfg s now).stale = true ↔
      s.latest = none ∨ ∃ smp : Sample, s.latest = some smp ∧
        now - (smp.timestamp : ℚ) > cfg.stale_after_s) ∧
    (∀ (v i tf tb : ℚ) (rp : Option ℚ),
      1 ≤ cfg.stale_after_s →
      (snapshot cfg (runCycle cfg s now (.sample v i tf tb rp)).state now).stale
        = false) ∧
    (∀ (v i tf tb : ℚ) (rp : Option ℚ) (later : ℚ),
      later - now > cfg.stale_after_s →
      (snapshot cfg (runCycle cfg s now (.sample v i tf tb rp)).state later).stale
        = true) := by
  refine ⟨?_, ?_, ?_⟩
  · cases hl : s.latest with
    | none => simp [snapshot, hl]
    | some smp => simp [snapshot, hl]
  · intro v i tf tb rp hth
    simp only [snapshot, runCycle, commitSample]
    rw [decide_eq_false_iff_not]
    push_neg
    have hfr : now - (⌊now⌋ : ℚ) < 1 := by
      have := Int.lt_floor_add_one now
      linarith
    linarith
  · intro v i tf tb rp later hgap
    simp only [snapshot, runCycle, commitSample]
    rw [decide_eq_true_eq]
    have hfl : (⌊now⌋ : ℚ) ≤ now := Int.floor_le now
    linarith

/-- Witness for C9: with a 60-second threshold, the snapshot taken at
the instant of a commit reports stale = false. -/
theorem c9_witness :
    (snapshot cfgUnit
      (runCycle cfgUnit (initState 0) 0 (.sample 1 1 0 0 none)).state 0).stale
      = false :=
  (c9_snapshot_stale cfgUnit (initState 0) 0).2.1 1 1 0 0 none (by norm_num [cfgUnit])

/- ------------------------------------------------------------------
   Claim C10
   ------------------------------------------------------------------ -/

/-- C10: a "sample" frame with numeric voltage and current but a missing
temperature field leaves latest, history and lastError unchanged (the
KeyError is raised while building the Sample and silently swallowed),
yet the integration carry has already been advanced: it equals exactly
`_integrate_energy` applied to the old carry at the engine wall-clock
time with the calibrated power, so the stored last-sample timestamp
becomes the current instant and, when the previous in-day sample is
between 0 and 1 hours in the past, power × elapsed hours has been added
to the running total, affecting later committed samples. -/
theorem c10_carry_advance (cfg : Config) (s : EngineState) (now v i : ℚ)
    (rp : Option ℚ) :
    (runCycle cfg s now (.missingTemp v i rp)).state.latest = s.latest ∧
    (runCycle cfg s now (.missingTemp v i rp)).state.history = s.history ∧
    (runCycle cfg s now (.missingTemp v i rp)).state.last_error = s.last_error ∧
    (runCycle cfg s now (.missingTemp v i rp)).state.carry =
      integrate_energy s.carry now
        (apply_calibration cfg.cal ⟨v, i, rp⟩).power_w ∧
    (runCycle cfg s now (.missingTemp v i rp)).state.carry.last_sample_ts
      = some now ∧
    ∀ t0 : ℚ, s.carry.last_sample_ts = some t0 →
      dayOf now = s.carry.day_marker →
      0 ≤ (now - t0) / 3600 → (now - t0) / 3600 ≤ 1 →
      (runCycle cfg s now (.missingTemp v i rp)).state.carry.energy_wh_day =
        s.carry.energy_wh_day +
          (apply_calibration cfg.cal ⟨v, i, rp⟩).power_w * ((now - t0) / 3600) := by
  refine ⟨rfl, rfl, rfl, rfl, aux_last_ts _ _ _, ?_⟩
  intro t0 hlast hday h0 h1
  show (integrate_energy s.carry now
      (apply_calibration cfg.cal ⟨v, i, rp⟩).power_w).energy_wh_day = _
  simp [integrate_energy, hday, hlast, h0, h1]

/-- Witness for C10: a missing-temperature frame half an hour after a
prior same-day sample adds power × 0.5 h to the carried total. -/
theorem c10_witness :
    (runCycle cfgUnit { initState 0 with carry := ⟨0, some 0, 0⟩ } 1800
        (.missingTemp 1 1 none)).state.carry.energy_wh_day =
      (0 : ℚ) + (apply_calibration cfgUnit.cal ⟨1, 1, none⟩).power_w
        * ((1800 - 0) / 3600) :=
  (c10_carry_advance cfgUnit { initState 0 with carry := ⟨0, some 0, 0⟩ } 1800 1 1
      none).2.2.2.2.2 0
    rfl (by show dayOf 1800 = 0; norm_num [dayOf]) (by norm_num) (by norm_num)

/- ------------------------------------------------------------------
   Helper lemmas about the durable-log model
   ------------------------------------------------------------------ -/

theorem aux_digitChar_ne_dot (n : ℕ) : digitChar n ≠ '.' := by
  unfold digitChar
  split_ifs <;> decide

theorem aux_fixedDigits_length (w n : ℕ) : (fixedDigits w n).length = w := by
  induction w generalizing n with
  | zero => rfl
  | succ w ih => simp [fixedDigits, ih]

theorem aux_fixedDigits_ne_dot (w n : ℕ) : ∀ c ∈ fixedDigits w n, c ≠ '.' := by
  induction w generalizing n with
  | zero => intro c hc; cases hc
  | succ w ih =>
      intro c hc
      simp only [fixedDigits, List.mem_append, List.mem_singleton] at hc
      rcases hc with hc | hc
      · exact ih (n / 10) c hc
      · rw [hc]; exact aux_digitChar_ne_dot _

theorem aux_takeWhile_append (P : Char → Bool) (l1 : List Char) (x : Char)
    (l2 : List Char) (hall : ∀ c ∈ l1, P c = true) (hx : P x = false) :
    (l1 ++ x :: l2).takeWhile P = l1 := by
  induction l1 with
  | nil => simp [List.takeWhile_cons, hx]
  | cons a t ih =>
      simp only [List.cons_append, List.takeWhile_cons, hall a (by simp)]
      rw [ih (fun c hc => hall c (by simp [hc]))]
      simp

theorem aux_decimals_mk (sgn ipd fd : List Char) (hfd : ∀ c ∈ fd, c ≠ '.') :
    decimalsAfterDot (String.mk (sgn ++ ipd ++ '.' :: fd)) = fd.length := by
  unfold decimalsAfterDot
  have hdata : (String.mk (sgn ++ ipd ++ '.' :: fd)).data
      = sgn ++ ipd ++ '.' :: fd := rfl
  rw [hdata, List.reverse_append, List.reverse_append, List.reverse_cons]
  simp only [List.append_assoc, List.singleton_append, List.cons_append,
    List.nil_append]
  have hres := aux_takeWhile_append (fun c => decide (c ≠ '.')) fd.reverse '.'
    (ipd.reverse ++ sgn.reverse)
    (fun c hc => decide_eq_true (hfd c (List.mem_reverse.mp hc))) (by simp)
  rw [hres]
  exact List.length_reverse _

theorem aux_fmt_decimals (p : ℕ) (x : ℚ) : decimalsAfterDot (fmtFixed p x) = p := by
  have h := aux_decimals_mk
    (if round (x * (10 : ℚ) ^ p) < 0 then ['-'] else [])
    (Nat.repr ((round (x * (10 : ℚ) ^ p)).natAbs / 10 ^ p)).data
    (fixedDigits p ((round (x * (10 : ℚ) ^ p)).natAbs % 10 ^ p))
    (aux_fixedDigits_ne_dot _ _)
  rw [aux_fixedDigits_length] at h
  simp only [fmtFixed]
  exact h

theorem aux_runCsv (ops : List CsvOp) :
    ∀ rows : List (List String), rows ≠ [] →
      runCsv rows ops = rows ++ (committedSamples ops).map sampleRow := by
  induction ops with
  | nil => intro rows _; simp [runCsv, committedSamples]
  | cons op ops ih =>
      intro rows hne
      cases op with
      | commit smp =>
          show runCsv (append_csv rows smp) ops = _
          rw [ih (append_csv rows smp) (by simp [append_csv])]
          simp [append_csv, committedSamples, List.filterMap_cons]
      | restart =>
          show runCsv (ensure_csv_header (some rows)) ops = _
          have hens : ensure_csv_header (some rows) = rows := by
            simp [ensure_csv_header, hne]
          rw [hens, ih rows hne]
          simp [committedSamples, List.filterMap_cons]

/- ------------------------------------------------------------------
   Claim C8
   ------------------------------------------------------------------ -/

/-- C8: starting from an absent store, after the initial header write
and any interleaving of commits and restarts (each restart re-running
`_ensure_csv_header` on the now non-empty file, which leaves it
untouched), the log is exactly one header row naming the seven columns
followed by one data row per committed sample in commit order; each data
row carries the timestamp and then the voltage, current and power at 4
decimal places, the two temperatures at 3, and the energy at 6. -/
theorem c8_durable_log :
    (∀ ops : List CsvOp,
      runCsv (ensure_csv_header none) ops =
        csvHeader :: (committedSamples ops).map sampleRow) ∧
    csvHeader = ["timestamp", "voltage_v", "current_a", "power_w",
      "temp_front_c", "temp_back_c", "energy_wh_day"] ∧
    (∀ smp : Sample, sampleRow smp =
      [toString smp.timestamp, fmtFixed 4 smp.voltage_v, fmtFixed 4 smp.current_a,
       fmtFixed 4 smp.power_w, fmtFixed 3 smp.temp_front_c, fmtFixed 3 smp.temp_back_c,
       fmtFixed 6 smp.energy_wh_day]) ∧
    ∀ x : ℚ, decimalsAfterDot (fmtFixed 4 x) = 4 ∧
      decimalsAfterDot (fmtFixed 3 x) = 3 ∧
      decimalsAfterDot (fmtFixed 6 x) = 6 := by
  refine ⟨?_, rfl, fun _ => rfl,
    fun x => ⟨aux_fmt_decimals 4 x, aux_fmt_decimals 3 x, aux_fmt_decimals 6 x⟩⟩
  intro ops
  have h := aux_runCsv ops [csvHeader] (by simp)
  show runCsv [csvHeader] ops = _
  rw [h]
  rfl

end SolarMonitor
